import Mathlib

set_option maxRecDepth 40000

/-
Verification of the request-caching core of the todo-or-die crate.

The definitions below are a shallow embedding of the Rust sources:
  src/http.rs   (fingerprint, response codec, disk cache store, facade)
  src/github.rs (direct GitHub request path)
  src/krate.rs  (crates.io checker, a facade caller)
  src/lib.rs    (perform_check wrapper shared by all checker entry points)

External library behaviour (std DefaultHasher, serde_json, hyper header
types, the filesystem) is modelled explicitly where the embedded code
depends on it; each such model is documented at its definition.
Machine integers are Nat or Int with explicit reductions modulo 2 ^ 64
where the Rust code computes in u64.
-/

/-- Decidable equality for Except values, used to evaluate concrete
outcomes in witnesses. -/
instance {ε α : Type} [DecidableEq ε] [DecidableEq α] : DecidableEq (Except ε α) := fun x y =>
  match x, y with
  | .ok a, .ok b =>
      if h : a = b then isTrue (by rw [h])
      else isFalse (by intro hh; cases hh; exact h rfl)
  | .error a, .error b =>
      if h : a = b then isTrue (by rw [h])
      else isFalse (by intro hh; cases hh; exact h rfl)
  | .ok _, .error _ => isFalse (by intro hh; cases hh)
  | .error _, .ok _ => isFalse (by intro hh; cases hh)

namespace TodoOrDie

/-- An outbound request as the facade receives it: method (always GET in
this crate), target URI, and an ordered list of header name / raw header
value byte pairs.  Mirrors hyper Request with an empty body. -/
structure OutboundRequest where
  method : String
  uri : String
  headers : List (String × List Nat)
deriving DecidableEq

/-- A fully buffered HTTP response: status code, ordered headers with raw
byte values, body bytes.  Mirrors hyper Response with a Bytes body. -/
structure HttpResponse where
  status : Nat
  headers : List (String × List Nat)
  body : List Nat
deriving DecidableEq

/-- The on-disk record written by serialize_response in src/http.rs:
status, headers collected into a hash map, body bytes, and the absolute
expiry timestamp in seconds. -/
structure SerializedResponse where
  status : Nat
  headers : List (String × List Nat)
  body : List Nat
  expires_at : Int
deriving DecidableEq

/-- Model of a byte blob stored in a cache file.  serde_json is an
external library; its contract is modelled by distinguishing blobs that
parse as a SerializedResponse (wellFormed, and parsing returns exactly
the serialized record) from blobs that do not (malformed, and parsing
fails). -/
inductive Blob where
  | wellFormed (sr : SerializedResponse)
  | malformed (bytes : List Nat)
deriving DecidableEq

/-- The disk cache store: one entry per fingerprint string.  Mirrors the
versioned cache directory of src/http.rs with one file per fingerprint. -/
abbrev Store := List (String × Blob)

/-- Process environment: variable name to unicode value, as read by
std env var. -/
abbrev Env := String → Option String

/-! ### Model of std DefaultHasher (SipHash 1-3 with zero keys)

hash_request in src/http.rs feeds the Debug rendering of the request
into std DefaultHasher.  DefaultHasher is SipHash 1-3 keyed with
(0, 0); the String Hash impl writes the UTF-8 bytes followed by a
single 0xff byte.  The implementation below follows the std sip.rs
routine, computing on Nat reduced modulo 2 ^ 64. -/

def w64Mod : Nat := 18446744073709551616

def w64 (n : Nat) : Nat := n % w64Mod

def rotl64 (a k : Nat) : Nat := ((a <<< k) % w64Mod) ||| (a >>> (64 - k))

structure SipState where
  v0 : Nat
  v1 : Nat
  v2 : Nat
  v3 : Nat

def sipRound (s : SipState) : SipState :=
  let v0 := w64 (s.v0 + s.v1)
  let v1 := rotl64 s.v1 13
  let v1b := v1 ^^^ v0
  let v0b := rotl64 v0 32
  let v2 := w64 (s.v2 + s.v3)
  let v3 := rotl64 s.v3 16
  let v3b := v3 ^^^ v2
  let v0c := w64 (v0b + v3b)
  let v3c := rotl64 v3b 21
  let v3d := v3c ^^^ v0c
  let v2b := w64 (v2 + v1b)
  let v1c := rotl64 v1b 17
  let v1d := v1c ^^^ v2b
  let v2c := rotl64 v2b 32
  ⟨v0c, v1d, v2c, v3d⟩

def sipCompress (s : SipState) (m : Nat) : SipState :=
  let s1 := sipRound { s with v3 := s.v3 ^^^ m }
  { s1 with v0 := s1.v0 ^^^ m }

/-- Little-endian word value of a byte list. -/
def le64 (bs : List Nat) : Nat := bs.foldr (fun b acc => b + acc * 256) 0

/-- Consume full 8-byte blocks, returning the final state and the
remaining tail of fewer than 8 bytes. -/
def sipBlocks : SipState → List Nat → SipState × List Nat
  | st, b0 :: b1 :: b2 :: b3 :: b4 :: b5 :: b6 :: b7 :: rest =>
      sipBlocks (sipCompress st (le64 [b0, b1, b2, b3, b4, b5, b6, b7])) rest
  | st, rest => (st, rest)

def sipHash13 (bs : List Nat) : Nat :=
  let st0 : SipState :=
    ⟨0x736f6d6570736575, 0x646f72616e646f6d, 0x6c7967656e657261, 0x7465646279746573⟩
  let stRest := sipBlocks st0 bs
  let finalBlock := w64 (le64 stRest.2 + (bs.length % 256) * 72057594037927936)
  let st1 := sipCompress stRest.1 finalBlock
  let st2 := sipRound (sipRound (sipRound { st1 with v2 := st1.v2 ^^^ 255 }))
  st2.v0 ^^^ st2.v1 ^^^ st2.v2 ^^^ st2.v3

/-- UTF-8 encoding of one scalar value. -/
def utf8Bytes (c : Char) : List Nat :=
  let n := c.toNat
  if n < 128 then [n]
  else if n < 2048 then [192 + n / 64, 128 + n % 64]
  else if n < 65536 then [224 + n / 4096, 128 + (n / 64) % 64, 128 + n % 64]
  else [240 + n / 262144, 128 + (n / 4096) % 64, 128 + (n / 64) % 64, 128 + n % 64]

def strBytes (s : String) : List Nat :=
  s.data.foldr (fun c acc => utf8Bytes c ++ acc) []

def quoteStr (s : String) : String := "\"" ++ s ++ "\""

def headerEntryDebug (kv : String × List Nat) : String :=
  quoteStr kv.1 ++ ": " ++ toString kv.2

def headersDebug (hs : List (String × List Nat)) : String :=
  String.intercalate ", " (hs.map headerEntryDebug)

/-- Model of the Debug rendering of the hyper request value that
hash_request in src/http.rs feeds to the hasher.  The exact text
produced by the external Debug impls is outside this repository; the
model is a fixed deterministic rendering that depends on exactly the
same data: method, URI, and the headers in order with their raw
values. -/
def debugFormat (r : OutboundRequest) : String :=
  "Request \x7b method: " ++ r.method ++ ", uri: " ++ r.uri ++
    ", version: HTTP/1.1, headers: \x7b" ++ headersDebug r.headers ++
    "\x7d, body: Body(Empty) \x7d"

/-- The fingerprint newtype of src/http.rs: the decimal rendering of the
64-bit hash. -/
structure RequestHash where
  val : String
deriving DecidableEq

/-- hash_request from src/http.rs lines 101 to 106: hash the Debug
rendering of the request with DefaultHasher and render the digest in
decimal.  The String Hash impl appends a 0xff marker byte. -/
def hash_request (r : OutboundRequest) : RequestHash :=
  ⟨toString (sipHash13 (strBytes (debugFormat r) ++ [255]))⟩

/-! ### Header map helpers

serialize_response collects the response headers into a Rust HashMap
keyed by header name, so a later value for a name replaces an earlier
one.  insertMap models HashMap insert on an association list (replace
in place, append when fresh); collectMap models collecting an iterator
of pairs into the map. -/

def insertMap : List (String × List Nat) → String → List Nat → List (String × List Nat)
  | [], k, v => [(k, v)]
  | (k0, v0) :: rest, k, v =>
      if k0 == k then (k, v) :: rest else (k0, v0) :: insertMap rest k v

def collectMap (hs : List (String × List Nat)) : List (String × List Nat) :=
  hs.foldl (fun acc kv => insertMap acc kv.1 kv.2) []

/-- Valid bytes for a hyper HeaderValue (model of the external
HeaderValue from_bytes check): byte 9, or a byte in 32 to 255 other
than 127. -/
def validValueByte (b : Nat) : Bool :=
  (32 ≤ b && b ≤ 255 && b != 127) || b == 9

/-- Characters allowed in an already normalized (lowercase) hyper
header name: lowercase letters, digits, and the token specials. -/
def validLowerNameChar (c : Char) : Bool :=
  (97 ≤ c.toNat && c.toNat ≤ 122) || (48 ≤ c.toNat && c.toNat ≤ 57) ||
  (c.toNat == 33) || (c.toNat == 35) || (c.toNat == 36) || (c.toNat == 37) ||
  (c.toNat == 38) || (c.toNat == 39) || (c.toNat == 42) || (c.toNat == 43) ||
  (c.toNat == 45) || (c.toNat == 46) || (c.toNat == 94) || (c.toNat == 95) ||
  (c.toNat == 96) || (c.toNat == 124) || (c.toNat == 126)

def isUpperCode (c : Char) : Bool := 65 ≤ c.toNat && c.toNat ≤ 90

/-- Characters accepted by HeaderName from_bytes before lowercase
normalization. -/
def validNameChar (c : Char) : Bool := validLowerNameChar c || isUpperCode c

def lowerChar (c : Char) : Char :=
  if isUpperCode c then Char.ofNat (c.toNat + 32) else c

/-- Model of hyper HeaderName from_bytes: nonempty, every character a
valid name character, normalized to lowercase. -/
def parseHeaderName (s : String) : Option String :=
  if !s.data.isEmpty && s.data.all validNameChar then
    some (String.mk (s.data.map lowerChar))
  else none

/-- One header pair of a serialized record turned back into hyper
types, as in deserialize_response: name via HeaderName from_bytes,
value via HeaderValue from_bytes. -/
def parseHeaderPair (kv : String × List Nat) : Except String (String × List Nat) :=
  match parseHeaderName kv.1 with
  | none => .error "Failed to build header map"
  | some k =>
      if kv.2.all validValueByte then .ok (k, kv.2)
      else .error "Failed to build header map"

/-- Parse every header pair, stopping at the first failure, as the
collect over Results does in deserialize_response. -/
def parseHeaderPairs : List (String × List Nat) → Except String (List (String × List Nat))
  | [] => .ok []
  | kv :: rest =>
      match parseHeaderPair kv with
      | .error e => .error e
      | .ok kv2 =>
          match parseHeaderPairs rest with
          | .error e => .error e
          | .ok rest2 => .ok (kv2 :: rest2)

/-! ### Cache TTL -/

/-- Parse of an ASCII digit. -/
def digitVal (c : Char) : Option Nat :=
  if 48 ≤ c.toNat && c.toNat ≤ 57 then some (c.toNat - 48) else none

def parseDigitsAux : List Char → Nat → Option Nat
  | [], acc => some acc
  | c :: rest, acc =>
      match digitVal c with
      | none => none
      | some d => parseDigitsAux rest (acc * 10 + d)

/-- At least one digit, digits only. -/
def parseNatStrict (cs : List Char) : Option Nat :=
  match cs with
  | [] => none
  | _ => parseDigitsAux cs 0

/-- Model of the std i64 FromStr parse used by cache_ttl: optional
sign, then one or more ASCII digits, rejecting values outside the i64
range. -/
def parseI64 (s : String) : Option Int :=
  match s.data with
  | '+' :: rest =>
      (parseNatStrict rest).bind
        (fun n => if n ≤ 9223372036854775807 then some (Int.ofNat n) else none)
  | '-' :: rest =>
      (parseNatStrict rest).bind
        (fun n => if n ≤ 9223372036854775808 then some (-(Int.ofNat n)) else none)
  | cs =>
      (parseNatStrict cs).bind
        (fun n => if n ≤ 9223372036854775807 then some (Int.ofNat n) else none)

def ttlVarName : String := "TODO_OR_DIE_HTTP_CACHE_TTL_SECONDS"

/-- cache_ttl from src/http.rs lines 151 to 158: read the TTL override
variable and parse it as i64 seconds; on a missing variable or a parse
failure fall back to one hour. -/
def cache_ttl (env : Env) : Int :=
  match env ttlVarName with
  | none => 3600
  | some v =>
      match parseI64 v with
      | none => 3600
      | some n => n

/-! ### Response codec -/

/-- serialize_response from src/http.rs lines 134 to 149: headers are
collected into a map keyed by name, the expiry is stamped as the
current time plus the TTL.  The current time and the TTL are explicit
arguments of the model (the Rust code reads the clock and the
environment at this point). -/
def serialize_response (r : HttpResponse) (now ttl : Int) : SerializedResponse :=
  ⟨r.status, collectMap r.headers, r.body, now + ttl⟩

/-- deserialize_response from src/http.rs lines 160 to 189: parse the
blob (a malformed blob is an error, not a silent miss), report an
expired entry as a successful none, then rebuild the status code
(valid range 100 to 999) and the header map, each failure an error. -/
def deserialize_response (data : Blob) (now : Int) : Except String (Option HttpResponse) :=
  match data with
  | .malformed _ => .error "Failed to deserialize cached HTTP response"
  | .wellFormed sr =>
      if now > sr.expires_at then .ok none
      else if 100 ≤ sr.status && sr.status < 1000 then
        match parseHeaderPairs sr.headers with
        | .error e => .error e
        | .ok pairs => .ok (some ⟨sr.status, collectMap pairs, sr.body⟩)
      else .error "invalid status code"

/-! ### Disk cache store -/

def storeGet (s : Store) (k : String) : Option Blob :=
  (s.find? (fun kv => kv.1 == k)).map (·.2)

/-- A whole-file write: the new entry shadows any previous one. -/
def storePut (s : Store) (k : String) (b : Blob) : Store :=
  (k, b) :: s

/-- remove_file for the entry of one fingerprint. -/
def storeRemove (s : Store) (k : String) : Store :=
  s.filter (fun kv => kv.1 != k)

/-- cached_response from src/http.rs lines 108 to 125: a missing file
is a miss, a decode error propagates, an expired entry is removed and
reported as a miss, a live entry is returned.  The store is threaded
explicitly; filesystem faults other than absence are outside the
model. -/
def cached_response (store : Store) (fp : String) (now : Int) :
    Except String (Option HttpResponse × Store) :=
  match storeGet store fp with
  | none => .ok (none, store)
  | some data =>
      match deserialize_response data now with
      | .error e => .error e
      | .ok (some resp) => .ok (some resp, store)
      | .ok none => .ok (none, storeRemove store fp)

/-- cache_response from src/http.rs lines 127 to 132: serialize and
write the whole blob under the fingerprint. -/
def cache_response (store : Store) (fp : String) (r : HttpResponse) (now ttl : Int) : Store :=
  storePut store fp (.wellFormed (serialize_response r now ttl))

/-! ### Synchronous request facade -/

/-- One observable step of a fetch: a cache lookup for a fingerprint,
or a network call through the transport client. -/
inductive FetchStep where
  | cacheLookup (fp : String)
  | networkCall
deriving DecidableEq

/-- The failure kinds the facade can return, one per bail site of
request in src/http.rs. -/
inductive ReqError where
  | cacheRead (msg : String)
  | transport
  | nonSuccess (status : Nat) (body : List Nat)
  | bodyParse
deriving DecidableEq

structure FetchOutcome (T : Type) where
  result : Except ReqError T
  store : Store
  networkCalls : Nat
  trace : List FetchStep
deriving DecidableEq

/-- request in src/http.rs inserts the fixed user-agent header before
fingerprinting; HeaderMap insert replaces an existing value in place. -/
def add_user_agent (r : OutboundRequest) : OutboundRequest :=
  { r with headers := insertMap r.headers "user-agent" (strBytes "todo-or-die") }

/-- The tail of request in src/http.rs lines 58 to 69: the success
check on the chosen response, then the JSON decode of the body.  The
typed JSON decode (serde into T) is an explicit argument. -/
def finishResp {T : Type} (decodeBody : List Nat → Option T) (resp : HttpResponse)
    (store : Store) (calls : Nat) (tr : List FetchStep) : FetchOutcome T :=
  if 200 ≤ resp.status && resp.status < 300 then
    match decodeBody resp.body with
    | some v => ⟨.ok v, store, calls, tr⟩
    | none => ⟨.error .bodyParse, store, calls, tr⟩
  else ⟨.error (.nonSuccess resp.status resp.body), store, calls, tr⟩

/-- request from src/http.rs lines 20 to 71, the synchronous facade:
insert the user-agent header, fingerprint once, consult the cache, on
a miss perform the single network call (the transport outcome is the
net argument, none being a transport failure) and persist the fetched
response, then check the status and decode the body. -/
def request {T : Type} (decodeBody : List Nat → Option T) (net : Option HttpResponse)
    (env : Env) (store : Store) (req : OutboundRequest) (now : Int) : FetchOutcome T :=
  let req1 := add_user_agent req
  let fp := (hash_request req1).val
  match cached_response store fp now with
  | .error e => ⟨.error (.cacheRead e), store, 0, [.cacheLookup fp]⟩
  | .ok (some resp, store2) => finishResp decodeBody resp store2 0 [.cacheLookup fp]
  | .ok (none, store2) =>
      match net with
      | none => ⟨.error .transport, store2, 1, [.cacheLookup fp, .networkCall]⟩
      | some resp =>
          let store3 := cache_response store2 fp resp now (cache_ttl env)
          finishResp decodeBody resp store3 1 [.cacheLookup fp, .networkCall]

/-- True when every network call in the trace is preceded by some
cache lookup; the accumulator records whether a lookup was already
seen. -/
def cacheBeforeNetworkB : Bool → List FetchStep → Bool
  | _, [] => true
  | _, .cacheLookup _ :: rest => cacheBeforeNetworkB true rest
  | seen, .networkCall :: rest => seen && cacheBeforeNetworkB seen rest

/-- True when the trace contains no cache lookup at all. -/
def noCacheLookupB (tr : List FetchStep) : Bool :=
  tr.all (fun st => match st with | .networkCall => true | .cacheLookup _ => false)

/-! ### The direct GitHub request path (src/github.rs)

src/github.rs owns a second, independent request function (lines 114
to 160) used by the issue and pull request checkers.  It calls the
transport client directly and never touches the cache of
src/http.rs. -/

namespace GitHub

/-- The failure kinds of the src/github.rs path. -/
inductive GhError where
  | inputParse (msg : String)
  | badAuthToken
  | transport
  | nonSuccess (status : Nat) (body : List Nat)
  | bodyParse
deriving DecidableEq

structure GhOutcome (T : Type) where
  result : Except GhError T
  trace : List TodoOrDie.FetchStep
deriving DecidableEq

/-- auth_token from src/github.rs lines 162 to 166. -/
def auth_token (env : Env) : Option String :=
  match env "TODO_OR_DIE_GITHUB_TOKEN" with
  | some t => some t
  | none => env "GITHUB_TOKEN"

/-- The network tail of request in src/github.rs: one direct transport
call, the success check, then the body decode.  No cache lookup
occurs. -/
def fetch {T : Type} (decodeBody : List Nat → Option T) (net : Option HttpResponse)
    (_req : OutboundRequest) : GhOutcome T :=
  match net with
  | none => ⟨.error .transport, [.networkCall]⟩
  | some resp =>
      if 200 ≤ resp.status && resp.status < 300 then
        match decodeBody resp.body with
        | some v => ⟨.ok v, [.networkCall]⟩
        | none => ⟨.error .bodyParse, [.networkCall]⟩
      else ⟨.error (.nonSuccess resp.status resp.body), [.networkCall]⟩

/-- request from src/github.rs lines 114 to 160: insert the accept and
user-agent headers, optionally the bearer authorization header (whose
value must be a valid header value, else the call fails before any
network traffic), then fetch directly from the network. -/
def request {T : Type} (decodeBody : List Nat → Option T) (net : Option HttpResponse)
    (env : Env) (req : OutboundRequest) : GhOutcome T :=
  let req1 :=
    { req with
        headers :=
          insertMap
            (insertMap req.headers "accept" (strBytes "application/vnd.github.v3+json"))
            "user-agent" (strBytes "todo-or-die") }
  match auth_token env with
  | some tok =>
      let tb := strBytes ("Bearer " ++ tok)
      if tb.all validValueByte then
        fetch decodeBody net
          { req1 with headers := insertMap req1.headers "authorization" tb }
      else ⟨.error .badAuthToken, []⟩
  | none => fetch decodeBody net req1

/-- split_once on a character, as used by the OrgRepoIssue parse. -/
def splitOnce (sep : Char) : List Char → Option (List Char × List Char)
  | [] => none
  | c :: rest =>
      if c == sep then some ([], rest)
      else (splitOnce sep rest).map (fun p => (c :: p.1, p.2))

/-- The OrgRepoIssue FromStr impl of src/github.rs lines 90 to 112:
split on the first slash, then the first hash, then parse the issue
number as u64. -/
def parseOrgRepoIssue (s : String) : Option (String × String × Nat) :=
  (splitOnce '/' s.data).bind (fun p1 =>
    (splitOnce '#' p1.2).bind (fun p2 =>
      (parseNatStrict p2.2).bind (fun n =>
        if n ≤ 18446744073709551615 then
          some (String.mk p1.1, String.mk p2.1, n)
        else none)))

/-- The closed check of issue_closed on the decoded Issue record. -/
def issueResult (res : Except GhError (Option String)) (org repo : String) (n : Nat) :
    Except GhError (Option String) :=
  match res with
  | .error e => .error e
  | .ok closedAt =>
      if closedAt.isSome then
        .ok (some (org ++ "/" ++ repo ++ "#" ++ toString n ++ " is closed. Time to act on this!"))
      else .ok none

/-- issue_closed from src/github.rs lines 14 to 47: parse the input,
query the issue through the direct GitHub request path, and report a
message when the issue has a closed_at value.  The serde decode of the
Issue shape is the decodeIssue argument. -/
def issue_closed (decodeIssue : List Nat → Option (Option String)) (net : Option HttpResponse)
    (env : Env) (input : String) : GhOutcome (Option String) :=
  match parseOrgRepoIssue input with
  | none =>
      ⟨.error (.inputParse "Parse error. Input must be of the form `org/repo#issue`"), []⟩
  | some (org, repo, n) =>
      let out :=
        request decodeIssue net env
          ⟨"GET",
            "https://api.github.com/repos/" ++ org ++ "/" ++ repo ++ "/issues/" ++ toString n,
            []⟩
      ⟨issueResult out.result org repo n, out.trace⟩

/-- The closed check of pr_closed on the decoded PullRequest record. -/
def prResult (res : Except GhError String) (org repo : String) (n : Nat) :
    Except GhError (Option String) :=
  match res with
  | .error e => .error e
  | .ok state =>
      if state == "closed" then
        .ok (some (org ++ "/" ++ repo ++ "#" ++ toString n ++ " is closed. Time to act on this!"))
      else .ok none

/-- pr_closed from src/github.rs lines 54 to 82: like issue_closed but
against the pulls endpoint, closed when the state field is the string
closed. -/
def pr_closed (decodePr : List Nat → Option String) (net : Option HttpResponse)
    (env : Env) (input : String) : GhOutcome (Option String) :=
  match parseOrgRepoIssue input with
  | none =>
      ⟨.error (.inputParse "Parse error. Input must be of the form `org/repo#issue`"), []⟩
  | some (org, repo, n) =>
      let out :=
        request decodePr net env
          ⟨"GET",
            "https://api.github.com/repos/" ++ org ++ "/" ++ repo ++ "/pulls/" ++ toString n,
            []⟩
      ⟨prResult out.result org repo n, out.trace⟩

end GitHub

/-! ### The crates.io checker (src/krate.rs), a facade caller -/

namespace Krate

inductive CrError where
  | http (e : ReqError)
  | noVersions
  | badVersion
deriving DecidableEq

structure CrOutcome where
  result : Except CrError (Option String)
  store : Store
  networkCalls : Nat
  trace : List TodoOrDie.FetchStep
deriving DecidableEq

/-- The version extraction and matching tail of crates_io on the
decoded crate record. -/
def crResult {V : Type} (res : Except ReqError (List String))
    (parseVersion : String → Option V) (showVer : V → String) (reqMatches : V → Bool)
    (krate : String) : Except CrError (Option String) :=
  match res with
  | .error e => .error (.http e)
  | .ok versions =>
      match versions.head? with
      | none => .error .noVersions
      | some num =>
          match parseVersion num with
          | none => .error .badVersion
          | some v =>
              if reqMatches v then
                .ok (some ("Latest version of " ++ krate ++ " is " ++ showVer v ++
                      ". Time to act on this!"))
              else .ok none

/-- crates_io from src/krate.rs lines 8 to 41: fetch the crate record
through the caching facade of src/http.rs, take the first listed
version, parse it with semver (modelled by the parseVersion argument
over an abstract version type), and report a message when the version
requirement matches. -/
def crates_io {V : Type} (decodeBody : List Nat → Option (List String))
    (parseVersion : String → Option V) (showVer : V → String) (reqMatches : V → Bool)
    (krate : String) (net : Option HttpResponse) (env : Env) (store : Store) (now : Int) :
    CrOutcome :=
  let out :=
    TodoOrDie.request decodeBody net env store
      ⟨"GET", "https://crates.io/api/v1/crates/" ++ krate, []⟩ now
  ⟨crResult out.result parseVersion showVer reqMatches krate,
    out.store, out.networkCalls, out.trace⟩

end Krate

/-! ### The shared per-invocation wrapper (src/lib.rs) -/

namespace Lib

/-- The token stream a checker invocation expands to: nothing, or a
compile error carrying a message. -/
inductive TokenStream where
  | empty
  | compileErr (msg : String)
deriving DecidableEq

/-- The observable outcome of perform_check: the emitted token stream,
whether the checker function was invoked, and what was printed to
standard error. -/
structure CheckOutcome where
  output : TokenStream
  checkerRan : Bool
  stderrOut : Option String
deriving DecidableEq

/-- perform_check from src/lib.rs lines 205 to 239, shared by all five
checker entry points: when the skip variable is set return an empty
stream at once; a parse failure of the input becomes a compile error;
a checker message becomes a compile error; a checker error is printed
to standard error and the stream stays empty. -/
def perform_check {α : Type} (env : Env) (parsed : Except String α)
    (f : α → Except String (Option String)) : CheckOutcome :=
  if (env "TODO_OR_DIE_SKIP").isSome then ⟨.empty, false, none⟩
  else
    match parsed with
    | .error err => ⟨.compileErr err, false, none⟩
    | .ok input =>
        match f input with
        | .ok none => ⟨.empty, true, none⟩
        | .ok (some msg) => ⟨.compileErr msg, true, none⟩
        | .error err => ⟨.empty, true, some ("something went wrong\n\n" ++ err)⟩

end Lib

/-! ### Validity of responses as hyper values

A Rust Response of Bytes carries type invariants the Nat/String model
makes explicit: the status code lies in the range accepted by
StatusCode from_u16, header names are nonempty normalized lowercase
tokens, header values contain only legal header value bytes. -/

def validLowerName (s : String) : Bool :=
  !s.data.isEmpty && s.data.all validLowerNameChar

def wellFormedResponse (r : HttpResponse) : Bool :=
  (100 ≤ r.status && r.status < 1000) &&
  r.headers.all (fun kv => validLowerName kv.1 && kv.2.all validValueByte)

/-- Header names pairwise distinct. -/
def keysNodup (hs : List (String × List Nat)) : Prop :=
  (hs.map Prod.fst).Nodup

instance (hs : List (String × List Nat)) : Decidable (keysNodup hs) :=
  inferInstanceAs (Decidable (hs.map Prod.fst).Nodup)

/-! ### Helper lemmas -/

theorem finishResp_store {T : Type} (d : List Nat → Option T) (r : HttpResponse)
    (s : Store) (c : Nat) (tr : List FetchStep) : (finishResp d r s c tr).store = s := by
  unfold finishResp
  split
  · split <;> rfl
  · rfl

theorem finishResp_calls {T : Type} (d : List Nat → Option T) (r : HttpResponse)
    (s : Store) (c : Nat) (tr : List FetchStep) : (finishResp d r s c tr).networkCalls = c := by
  unfold finishResp
  split
  · split <;> rfl
  · rfl

theorem finishResp_trace {T : Type} (d : List Nat → Option T) (r : HttpResponse)
    (s : Store) (c : Nat) (tr : List FetchStep) : (finishResp d r s c tr).trace = tr := by
  unfold finishResp
  split
  · split <;> rfl
  · rfl

theorem finishResp_nonSuccess {T : Type} (d : List Nat → Option T) (r : HttpResponse)
    (s : Store) (c : Nat) (tr : List FetchStep)
    (h : ¬ (200 ≤ r.status ∧ r.status < 300)) :
    (finishResp d r s c tr).result = .error (.nonSuccess r.status r.body) := by
  unfold finishResp
  rw [if_neg]
  simpa using h

theorem storeGet_put_self (s : Store) (k : String) (b : Blob) :
    storeGet (storePut s k b) k = some b := by
  simp [storeGet, storePut, List.find?]

theorem cached_response_put_self (s : Store) (fp : String) (B : Blob) (now : Int) :
    cached_response (storePut s fp B) fp now =
      match deserialize_response B now with
      | .error e => .error e
      | .ok (some resp) => .ok (some resp, storePut s fp B)
      | .ok none => .ok (none, storeRemove (storePut s fp B) fp) := by
  unfold cached_response
  rw [storeGet_put_self]

theorem storeGet_remove_self (s : Store) (k : String) :
    storeGet (storeRemove s k) k = none := by
  have hfind : (s.filter (fun kv => kv.1 != k)).find? (fun kv => kv.1 == k) = none := by
    rw [List.find?_eq_none]
    intro kv hkv
    have h1 := (List.mem_filter.1 hkv).2
    simp only [bne_iff_ne, ne_eq] at h1
    simp [h1]
  simp [storeGet, storeRemove, hfind]

theorem insertMap_of_not_mem (acc : List (String × List Nat)) (k : String) (v : List Nat)
    (h : ∀ kv ∈ acc, kv.1 ≠ k) : insertMap acc k v = acc ++ [(k, v)] := by
  induction acc with
  | nil => rfl
  | cons kv rest ih =>
      obtain ⟨k0, v0⟩ := kv
      have h1 : k0 ≠ k := h (k0, v0) (List.mem_cons_self _ _)
      have h2 : (k0 == k) = false := by simpa using h1
      simp only [insertMap, h2, Bool.false_eq_true, if_false, List.cons_append,
        List.cons.injEq, true_and]
      exact ih (fun x hx => h x (List.mem_cons_of_mem _ hx))

theorem collect_go_eq (hs : List (String × List Nat)) :
    ∀ acc : List (String × List Nat), ((acc ++ hs).map Prod.fst).Nodup →
      hs.foldl (fun acc kv => insertMap acc kv.1 kv.2) acc = acc ++ hs := by
  induction hs with
  | nil => intro acc _; simp
  | cons kv rest ih =>
      intro acc h
      have hmap : ((acc ++ kv :: rest).map Prod.fst) =
          acc.map Prod.fst ++ kv.1 :: rest.map Prod.fst := by simp
      rw [hmap] at h
      have hnotmem : ∀ x ∈ acc, x.1 ≠ kv.1 := by
        intro x hx heq
        have hx1 : x.1 ∈ acc.map Prod.fst := List.mem_map_of_mem _ hx
        have hdis := (List.nodup_append.1 h).2.2
        exact hdis hx1 (by rw [heq]; exact List.mem_cons_self _ _)
      rw [List.foldl_cons, insertMap_of_not_mem acc kv.1 kv.2 hnotmem]
      rw [ih (acc ++ [kv]) (by simpa using h)]
      simp

theorem collectMap_eq_self (hs : List (String × List Nat)) (h : keysNodup hs) :
    collectMap hs = hs := by
  have := collect_go_eq hs [] (by simpa [keysNodup] using h)
  simpa [collectMap] using this

theorem lowerChar_id_of_valid (c : Char) (h : validLowerNameChar c = true) :
    lowerChar c = c := by
  simp only [validLowerNameChar, Bool.or_eq_true, Bool.and_eq_true,
    decide_eq_true_eq, beq_iff_eq] at h
  have hu : isUpperCode c = false := by
    simp only [isUpperCode, Bool.and_eq_true, decide_eq_true_eq,
      Bool.and_eq_false_iff, decide_eq_false_iff_not, not_le]
    omega
  simp [lowerChar, hu]

theorem validNameChar_of_lower (c : Char) (h : validLowerNameChar c = true) :
    validNameChar c = true := by
  simp [validNameChar, h]

theorem map_lowerChar_id (cs : List Char) (h : cs.all validLowerNameChar = true) :
    cs.map lowerChar = cs := by
  induction cs with
  | nil => rfl
  | cons c rest ih =>
      simp only [List.all_cons, Bool.and_eq_true] at h
      simp [lowerChar_id_of_valid c h.1, ih h.2]

theorem parseHeaderName_of_lower (s : String) (h : validLowerName s = true) :
    parseHeaderName s = some s := by
  simp only [validLowerName, Bool.and_eq_true] at h
  have hall : s.data.all validNameChar = true := by
    rw [List.all_eq_true] at *
    exact fun c hc => validNameChar_of_lower c (h.2 c hc)
  unfold parseHeaderName
  rw [if_pos (by simp [h.1, hall])]
  rw [map_lowerChar_id s.data h.2]

theorem parseHeaderPair_self (kv : String × List Nat)
    (h : (validLowerName kv.1 && kv.2.all validValueByte) = true) :
    parseHeaderPair kv = .ok kv := by
  simp only [Bool.and_eq_true] at h
  unfold parseHeaderPair
  rw [parseHeaderName_of_lower kv.1 h.1]
  simp [h.2]

theorem parseHeaderPairs_self (hs : List (String × List Nat))
    (h : hs.all (fun kv => validLowerName kv.1 && kv.2.all validValueByte) = true) :
    parseHeaderPairs hs = .ok hs := by
  induction hs with
  | nil => rfl
  | cons kv rest ih =>
      simp only [List.all_cons, Bool.and_eq_true] at h
      unfold parseHeaderPairs
      rw [parseHeaderPair_self kv (by simp [h.1])]
      rw [ih h.2]

/-- Unfolding equation for deserialize_response on a parseable blob. -/
theorem deserialize_wellFormed (sr : SerializedResponse) (now : Int) :
    deserialize_response (.wellFormed sr) now =
      if now > sr.expires_at then .ok none
      else if 100 ≤ sr.status && sr.status < 1000 then
        match parseHeaderPairs sr.headers with
        | .error e => .error e
        | .ok pairs => .ok (some ⟨sr.status, collectMap pairs, sr.body⟩)
      else .error "invalid status code" := rfl

/-- The codec round trip on a well formed response with distinct
header names, inside the expiry window: decoding gives back exactly
the serialized response. -/
theorem deserialize_serialize (r : HttpResponse) (now t now2 : Int)
    (hwf : wellFormedResponse r = true) (hnd : keysNodup r.headers)
    (hwin : now2 ≤ now + t) :
    deserialize_response (.wellFormed (serialize_response r now t)) now2 = .ok (some r) := by
  simp only [wellFormedResponse, Bool.and_eq_true, decide_eq_true_eq] at hwf
  have hser : serialize_response r now t = ⟨r.status, r.headers, r.body, now + t⟩ := by
    unfold serialize_response
    rw [collectMap_eq_self r.headers hnd]
  rw [hser, deserialize_wellFormed]
  rw [if_neg (by simp only [not_lt]; exact hwin)]
  rw [if_pos (by simp [hwf.1.1, hwf.1.2])]
  rw [parseHeaderPairs_self r.headers hwf.2]
  simp [collectMap_eq_self r.headers hnd]

theorem mem_insertMap (acc : List (String × List Nat)) (k : String) (v : List Nat)
    (x : String × List Nat) (hx : x ∈ insertMap acc k v) : x ∈ acc ∨ x = (k, v) := by
  induction acc with
  | nil =>
      simp only [insertMap, List.mem_singleton] at hx
      exact Or.inr hx
  | cons kv rest ih =>
      obtain ⟨k0, v0⟩ := kv
      by_cases h : (k0 == k) = true
      · simp only [insertMap, h, if_true] at hx
        rcases List.mem_cons.1 hx with h1 | h1
        · exact Or.inr h1
        · exact Or.inl (List.mem_cons_of_mem _ h1)
      · simp only [insertMap, h, if_false] at hx
        rcases List.mem_cons.1 hx with h1 | h1
        · exact Or.inl (by rw [h1]; exact List.mem_cons_self _ _)
        · rcases ih h1 with h2 | h2
          · exact Or.inl (List.mem_cons_of_mem _ h2)
          · exact Or.inr h2

theorem mem_collect_go (hs : List (String × List Nat)) :
    ∀ acc x, x ∈ hs.foldl (fun acc kv => insertMap acc kv.1 kv.2) acc → x ∈ acc ∨ x ∈ hs := by
  induction hs with
  | nil => intro acc x hx; exact Or.inl hx
  | cons kv rest ih =>
      intro acc x hx
      rw [List.foldl_cons] at hx
      rcases ih _ x hx with h1 | h1
      · rcases mem_insertMap acc kv.1 kv.2 x h1 with h2 | h2
        · exact Or.inl h2
        · exact Or.inr (by rw [h2]; exact List.mem_cons_self _ _)
      · exact Or.inr (List.mem_cons_of_mem _ h1)

/-- Every pair of the collected map is one of the original pairs. -/
theorem mem_collectMap (hs : List (String × List Nat)) (x : String × List Nat)
    (hx : x ∈ collectMap hs) : x ∈ hs := by
  rcases mem_collect_go hs [] x hx with h | h
  · exact absurd h (List.not_mem_nil x)
  · exact h

theorem keys_insertMap_sub (acc : List (String × List Nat)) (k : String) (v : List Nat)
    (y : String) (hy : y ∈ (insertMap acc k v).map Prod.fst) :
    y ∈ acc.map Prod.fst ∨ y = k := by
  rcases List.mem_map.1 hy with ⟨x, hx, hxy⟩
  rcases mem_insertMap acc k v x hx with h | h
  · exact Or.inl (hxy ▸ List.mem_map_of_mem _ h)
  · right
    rw [← hxy, h]

theorem keysNodup_insertMap (acc : List (String × List Nat)) (k : String) (v : List Nat)
    (h : keysNodup acc) : keysNodup (insertMap acc k v) := by
  induction acc with
  | nil => simp [insertMap, keysNodup]
  | cons kv rest ih =>
      obtain ⟨k0, v0⟩ := kv
      simp only [keysNodup, List.map_cons, List.nodup_cons] at h
      cases hb : (k0 == k) with
      | true =>
          have hk : k0 = k := by simpa using hb
          simp only [insertMap, hb, eq_self_iff_true, if_true, keysNodup, List.map_cons,
            List.nodup_cons]
          exact ⟨hk ▸ h.1, h.2⟩
      | false =>
          simp only [insertMap, hb, Bool.false_eq_true, if_false, keysNodup, List.map_cons,
            List.nodup_cons]
          refine ⟨?_, ih h.2⟩
          intro hmem
          rcases keys_insertMap_sub rest k v k0 hmem with h1 | h1
          · exact h.1 h1
          · exact absurd h1 (by simpa using hb)

theorem keysNodup_collect_go (hs : List (String × List Nat)) :
    ∀ acc, keysNodup acc →
      keysNodup (hs.foldl (fun acc kv => insertMap acc kv.1 kv.2) acc) := by
  induction hs with
  | nil => intro acc h; exact h
  | cons kv rest ih =>
      intro acc h
      rw [List.foldl_cons]
      exact ih _ (keysNodup_insertMap acc kv.1 kv.2 h)

/-- Collecting into the map always leaves pairwise distinct names. -/
theorem keysNodup_collectMap (hs : List (String × List Nat)) : keysNodup (collectMap hs) :=
  keysNodup_collect_go hs [] (by simp [keysNodup])

theorem all_collectMap (hs : List (String × List Nat)) (P : String × List Nat → Bool)
    (h : hs.all P = true) : (collectMap hs).all P = true := by
  rw [List.all_eq_true] at *
  intro x hx
  exact h x (mem_collectMap hs x hx)

/-- The codec round trip on any well formed response, inside the
expiry window, duplicate header names allowed: decoding yields the
response with the headers collapsed by the map collection, the status
and body preserved exactly. -/
theorem deserialize_serialize_dedup (r : HttpResponse) (now t now2 : Int)
    (hwf : wellFormedResponse r = true) (hwin : now2 ≤ now + t) :
    deserialize_response (.wellFormed (serialize_response r now t)) now2
      = .ok (some ⟨r.status, collectMap r.headers, r.body⟩) := by
  simp only [wellFormedResponse, Bool.and_eq_true, decide_eq_true_eq] at hwf
  have hser : serialize_response r now t
      = ⟨r.status, collectMap r.headers, r.body, now + t⟩ := rfl
  rw [hser, deserialize_wellFormed]
  rw [if_neg (by simp only [not_lt]; exact hwin)]
  rw [if_pos (by simp [hwf.1.1, hwf.1.2])]
  rw [parseHeaderPairs_self (collectMap r.headers) (all_collectMap _ _ hwf.2)]
  simp [collectMap_eq_self (collectMap r.headers) (keysNodup_collectMap r.headers)]

theorem request_cache_before_network {T : Type} (decodeBody : List Nat → Option T)
    (net : Option HttpResponse) (env : Env) (store : Store) (req : OutboundRequest)
    (now : Int) :
    cacheBeforeNetworkB false ((request decodeBody net env store req now).trace) = true := by
  cases hcr : cached_response store ((hash_request (add_user_agent req)).val) now with
  | error e => simp [request, hcr, cacheBeforeNetworkB]
  | ok p =>
      obtain ⟨o, store2⟩ := p
      cases o with
      | some resp => simp [request, hcr, finishResp_trace, cacheBeforeNetworkB]
      | none =>
          cases net with
          | none => simp [request, hcr, cacheBeforeNetworkB]
          | some resp => simp [request, hcr, finishResp_trace, cacheBeforeNetworkB]

theorem gh_fetch_trace {T : Type} (d : List Nat → Option T) (net : Option HttpResponse)
    (req : OutboundRequest) : (GitHub.fetch d net req).trace = [.networkCall] := by
  cases net with
  | none => rfl
  | some resp =>
      by_cases hs : (200 ≤ resp.status && resp.status < 300) = true
      · cases hd : d resp.body <;> simp [GitHub.fetch, hs, hd]
      · simp [GitHub.fetch, hs]

theorem gh_request_no_cache {T : Type} (d : List Nat → Option T) (net : Option HttpResponse)
    (env : Env) (req : OutboundRequest) :
    noCacheLookupB (GitHub.request d net env req).trace = true := by
  have hfetch : ∀ r, noCacheLookupB (GitHub.fetch d net r).trace = true := by
    intro r
    rw [gh_fetch_trace]
    rfl
  cases hat : GitHub.auth_token env with
  | none =>
      simp only [GitHub.request, hat]
      exact hfetch _
  | some tok =>
      by_cases hv : (strBytes ("Bearer " ++ tok)).all validValueByte = true
      · simp only [GitHub.request, hat, hv, if_true]
        exact hfetch _
      · simp only [GitHub.request, hat, hv, if_false]
        rfl

/-! ### Claim C5 -/

/-- Claim C5, counterexample: a cached response with a duplicated
header name does not round trip.  Serialization collects headers into
a map keyed by name, so of the two values for the name only the last
survives: decoding the encoding of the response with headers
x-a: 49 and x-a: 50, with ttl 10 and evaluated inside the window,
returns a response carrying only x-a: 50, and the value 49 is lost
outright, so the decoded headers are not equal to the originals under
any reading of header equality. -/
theorem roundtrip_dup_header_counterexample :
    deserialize_response
        (.wellFormed (serialize_response ⟨200, [("x-a", [49]), ("x-a", [50])], []⟩ 0 10)) 0
      = .ok (some ⟨200, [("x-a", [50])], []⟩) ∧
    ([("x-a", [49]), ("x-a", [50])] : List (String × List Nat)).length = 2 ∧
    ([("x-a", [50])] : List (String × List Nat)).length = 1 ∧
    (([("x-a", [50])] : List (String × List Nat)).contains ("x-a", [49])) = false :=
  ⟨rfl, rfl, rfl, rfl⟩

/-- Claim C5 (amended: header names must be pairwise distinct, and the
status and header validity invariants of the Rust response types are
explicit): for any well formed cached response C with distinct header
names and any ttl t > 0, decoding the encoding of C at any time within
the ttl window yields exactly C: equal status, equal headers with
their raw byte values, equal body. -/
theorem roundtrip_within_ttl (r : HttpResponse) (now t now2 : Int)
    (ht : 0 < t) (hwf : wellFormedResponse r = true) (hnd : keysNodup r.headers)
    (hwin : now2 ≤ now + t) :
    deserialize_response (.wellFormed (serialize_response r now t)) now2 = .ok (some r) :=
  deserialize_serialize r now t now2 hwf hnd hwin

/-- Witness for the amended C5 round trip at a concrete response. -/
theorem roundtrip_within_ttl_witness :
    deserialize_response
        (.wellFormed (serialize_response
          ⟨200, [("content-type", [97, 112]), ("etag", [34, 120, 34])], [1, 2, 3]⟩ 5 60)) 30
      = .ok (some ⟨200, [("content-type", [97, 112]), ("etag", [34, 120, 34])], [1, 2, 3]⟩) :=
  roundtrip_within_ttl _ 5 60 30 (by decide) (by decide) (by decide) (by decide)

/-! ### Claim C6 -/

/-- Claim C6: decoding the encoding of C at a time strictly past
now + t reports the expired case (a successful none, not an error, so
the caller treats it as a miss), cached_response removes the stale
entry as a side effect, and a subsequent get on the store for that
fingerprint is absent. -/
theorem expiry_reports_miss_and_removes (r : HttpResponse) (store : Store) (fp : String)
    (now t now2 : Int) (h : now + t < now2) :
    deserialize_response (.wellFormed (serialize_response r now t)) now2 = .ok none ∧
    cached_response (storePut store fp (.wellFormed (serialize_response r now t))) fp now2
      = .ok (none, storeRemove (storePut store fp (.wellFormed (serialize_response r now t))) fp) ∧
    storeGet (storeRemove (storePut store fp (.wellFormed (serialize_response r now t))) fp) fp
      = none := by
  have h1 : deserialize_response (.wellFormed (serialize_response r now t)) now2 = .ok none := by
    rw [deserialize_wellFormed]
    rw [if_pos]
    show now2 > (serialize_response r now t).expires_at
    simpa [serialize_response] using h
  refine ⟨h1, ?_, storeGet_remove_self _ fp⟩
  rw [cached_response_put_self, h1]

/-- Witness for C6 at a concrete response, ttl and reading time. -/
theorem expiry_reports_miss_and_removes_witness :
    deserialize_response (.wellFormed (serialize_response ⟨200, [], [7]⟩ 0 60)) 90 = .ok none ∧
    cached_response (storePut [] "k" (.wellFormed (serialize_response ⟨200, [], [7]⟩ 0 60))) "k" 90
      = .ok (none, storeRemove (storePut [] "k" (.wellFormed (serialize_response ⟨200, [], [7]⟩ 0 60))) "k") ∧
    storeGet (storeRemove (storePut [] "k" (.wellFormed (serialize_response ⟨200, [], [7]⟩ 0 60))) "k") "k"
      = none :=
  expiry_reports_miss_and_removes ⟨200, [], [7]⟩ [] "k" 0 60 90 (by decide)

/-! ### Claim C7 -/

/-- Claim C7: the fingerprint is a pure total function of the request
description; two requests agreeing on method, URI and ordered headers
receive the same fingerprint, which is what equality across repeated
calls and across process restarts means for a function free of IO and
of failure modes. -/
theorem hash_request_deterministic (r1 r2 : OutboundRequest)
    (hm : r1.method = r2.method) (hu : r1.uri = r2.uri) (hh : r1.headers = r2.headers) :
    hash_request r1 = hash_request r2 := by
  obtain ⟨m1, u1, h1⟩ := r1
  obtain ⟨m2, u2, h2⟩ := r2
  cases hm; cases hu; cases hh
  rfl

/-- Witness for C7 at a concrete request. -/
theorem hash_request_deterministic_witness :
    hash_request ⟨"GET", "https://crates.io/api/v1/crates/serde", [("user-agent", [116, 111])]⟩ =
      hash_request ⟨"GET", "https://crates.io/api/v1/crates/serde", [("user-agent", [116, 111])]⟩ :=
  hash_request_deterministic _ _ rfl rfl rfl

/-! ### Claim C9 -/

/-- Modelled from the spec: the claim reads the TTL override as
holding a non-negative integer number of seconds, with 3600 used when
the variable is absent or does not parse as such a value. -/
def ttl_spec (env : Env) : Int :=
  match env ttlVarName with
  | none => 3600
  | some v =>
      match parseNatStrict v.data with
      | none => 3600
      | some n => Int.ofNat n

/-- Claim C9, counterexample: with the override set to the string -5,
the code parses it as the signed integer -5 and uses a negative TTL,
while under the claim a negative value is not a non-negative integer,
so 3600 would have to be used; the stamped expiry is then in the past
at the moment of writing. -/
theorem cache_ttl_negative_counterexample :
    cache_ttl (fun k => if k == ttlVarName then some "-5" else none) = -5 ∧
    ttl_spec (fun k => if k == ttlVarName then some "-5" else none) = 3600 ∧
    cache_ttl (fun k => if k == ttlVarName then some "-5" else none) < 0 ∧
    (serialize_response ⟨200, [], []⟩ 100
        (cache_ttl (fun k => if k == ttlVarName then some "-5" else none))).expires_at < 100 :=
  ⟨rfl, rfl, by decide, by decide⟩

/-- Claim C9 (amended: the override is parsed as a signed 64 bit
integer, so a negative value is accepted as is rather than rejected;
absent, unparseable and out of range values fall back to 3600): the
TTL stamped into an entry expiry is now plus 3600 when the variable is
absent or fails the i64 parse, and now plus the parsed value
otherwise. -/
theorem cache_ttl_spec (env : Env) :
    (env ttlVarName = none → cache_ttl env = 3600) ∧
    (∀ v, env ttlVarName = some v → parseI64 v = none → cache_ttl env = 3600) ∧
    (∀ v n, env ttlVarName = some v → parseI64 v = some n → cache_ttl env = n) ∧
    (∀ r now, (serialize_response r now (cache_ttl env)).expires_at = now + cache_ttl env) := by
  refine ⟨?_, ?_, ?_, ?_⟩
  · intro h; simp [cache_ttl, h]
  · intro v h hp; simp [cache_ttl, h, hp]
  · intro v n h hp; simp [cache_ttl, h, hp]
  · intro r now; rfl

/-- Witness for the amended C9 at concrete environments. -/
theorem cache_ttl_spec_witness :
    cache_ttl (fun _ => none) = 3600 ∧
    cache_ttl (fun k => if k == ttlVarName then some "junk" else none) = 3600 ∧
    cache_ttl (fun k => if k == ttlVarName then some "120" else none) = 120 :=
  ⟨(cache_ttl_spec (fun _ => none)).1 rfl,
   (cache_ttl_spec (fun k => if k == ttlVarName then some "junk" else none)).2.1 "junk" rfl rfl,
   (cache_ttl_spec (fun k => if k == ttlVarName then some "120" else none)).2.2.1 "120" 120 rfl rfl⟩

/-! ### Claim C3 -/

/-- Claim C3: one fingerprint serves both the lookup and the store on
miss (the same fingerprint term indexes both); on a cache hit with a
live entry the facade makes zero network calls; on a miss it makes
exactly one, and when the transport returns a response that response
is persisted under the fingerprint in the store the facade hands back,
whatever the final result is, so persistence precedes the return of
the decoded value. -/
theorem request_fingerprint_and_cache {T : Type} (decodeBody : List Nat → Option T)
    (net : Option HttpResponse) (env : Env) (store : Store) (req : OutboundRequest)
    (now : Int) :
    ((∃ resp store2,
        cached_response store ((hash_request (add_user_agent req)).val) now
          = .ok (some resp, store2)) →
      (request decodeBody net env store req now).networkCalls = 0) ∧
    (∀ store2,
      cached_response store ((hash_request (add_user_agent req)).val) now
          = .ok (none, store2) →
        (request decodeBody net env store req now).networkCalls = 1 ∧
        ∀ resp, net = some resp →
          storeGet (request decodeBody net env store req now).store
              ((hash_request (add_user_agent req)).val)
            = some (.wellFormed (serialize_response resp now (cache_ttl env)))) := by
  constructor
  · rintro ⟨resp, store2, hhit⟩
    simp only [request, hhit]
    exact finishResp_calls ..
  · intro store2 hmiss
    constructor
    · cases net with
      | none => simp only [request, hmiss]
      | some resp =>
          simp only [request, hmiss]
          exact finishResp_calls ..
    · intro resp hnet
      subst hnet
      simp only [request, hmiss]
      rw [finishResp_store]
      exact storeGet_put_self ..

/-- Witness for C3 on a concrete miss followed by a successful
fetch. -/
theorem request_fingerprint_and_cache_witness :
    (request (fun _ => (some 0 : Option Nat)) (some ⟨200, [], []⟩) (fun _ => none) []
        ⟨"GET", "https://crates.io/api/v1/crates/serde", []⟩ 0).networkCalls = 1 ∧
    storeGet (request (fun _ => (some 0 : Option Nat)) (some ⟨200, [], []⟩) (fun _ => none) []
        ⟨"GET", "https://crates.io/api/v1/crates/serde", []⟩ 0).store
        ((hash_request (add_user_agent ⟨"GET", "https://crates.io/api/v1/crates/serde", []⟩)).val)
      = some (.wellFormed (serialize_response ⟨200, [], []⟩ 0 (cache_ttl (fun _ => none)))) := by
  have h := (request_fingerprint_and_cache (fun _ => (some 0 : Option Nat)) (some ⟨200, [], []⟩)
      (fun _ => none) [] ⟨"GET", "https://crates.io/api/v1/crates/serde", []⟩ 0).2 [] rfl
  exact ⟨h.1, h.2 _ rfl⟩

/-! ### Claim C1 -/

/-- Claim C1, counterexample: on a cache miss with a network response
of status 500, the facade does return the failure carrying status and
body, but a cache entry IS persisted for the fingerprint, because the
code caches the fetched response before the success check. -/
theorem nonsuccess_not_persisted_refuted :
    (request (fun _ => (none : Option Nat)) (some ⟨500, [], strBytes "oops"⟩) (fun _ => none) []
        ⟨"GET", "https://api.github.com/repos/a/b/issues/1", []⟩ 0).result
      = .error (.nonSuccess 500 (strBytes "oops")) ∧
    (storeGet (request (fun _ => (none : Option Nat)) (some ⟨500, [], strBytes "oops"⟩)
        (fun _ => none) [] ⟨"GET", "https://api.github.com/repos/a/b/issues/1", []⟩ 0).store
      (hash_request (add_user_agent
        ⟨"GET", "https://api.github.com/repos/a/b/issues/1", []⟩)).val).isSome = true :=
  ⟨rfl, rfl⟩

/-- Claim C1 (amended: the failure carrying status and body is
returned, but the response IS persisted under the fingerprint, the
write preceding the status check; hence a subsequent identical request
within the TTL is answered from the cache with zero network calls and
fails with the same status, instead of attempting the network
again). -/
theorem request_nonsuccess_persists {T : Type} (decodeBody : List Nat → Option T)
    (env : Env) (store store2 : Store) (req : OutboundRequest) (now now2 : Int)
    (resp : HttpResponse)
    (hmiss : cached_response store ((hash_request (add_user_agent req)).val) now
      = .ok (none, store2))
    (hfail : ¬ (200 ≤ resp.status ∧ resp.status < 300))
    (hwf : wellFormedResponse resp = true)
    (hwin : now2 ≤ now + cache_ttl env) :
    (request decodeBody (some resp) env store req now).result
        = .error (.nonSuccess resp.status resp.body) ∧
    storeGet (request decodeBody (some resp) env store req now).store
        ((hash_request (add_user_agent req)).val)
      = some (.wellFormed (serialize_response resp now (cache_ttl env))) ∧
    (request decodeBody (some resp) env
        ((request decodeBody (some resp) env store req now).store) req now2).networkCalls = 0 ∧
    (request decodeBody (some resp) env
        ((request decodeBody (some resp) env store req now).store) req now2).result
      = .error (.nonSuccess resp.status resp.body) := by
  have hfirst : request decodeBody (some resp) env store req now
      = finishResp decodeBody resp
          (cache_response store2 ((hash_request (add_user_agent req)).val) resp now
            (cache_ttl env))
          1 [.cacheLookup ((hash_request (add_user_agent req)).val), .networkCall] := by
    simp only [request, hmiss]
  have hstore : (request decodeBody (some resp) env store req now).store
      = storePut store2 ((hash_request (add_user_agent req)).val)
          (.wellFormed (serialize_response resp now (cache_ttl env))) := by
    rw [hfirst, finishResp_store]
    rfl
  have hcr2 : cached_response
        (storePut store2 ((hash_request (add_user_agent req)).val)
          (.wellFormed (serialize_response resp now (cache_ttl env))))
        ((hash_request (add_user_agent req)).val) now2
      = .ok (some ⟨resp.status, collectMap resp.headers, resp.body⟩,
          storePut store2 ((hash_request (add_user_agent req)).val)
            (.wellFormed (serialize_response resp now (cache_ttl env)))) := by
    rw [cached_response_put_self,
      deserialize_serialize_dedup resp now (cache_ttl env) now2 hwf hwin]
  refine ⟨?_, ?_, ?_, ?_⟩
  · rw [hfirst]
    exact finishResp_nonSuccess _ _ _ _ _ hfail
  · rw [hstore]
    exact storeGet_put_self ..
  · rw [hstore]
    simp only [request, hcr2]
    exact finishResp_calls ..
  · rw [hstore]
    simp only [request, hcr2]
    exact finishResp_nonSuccess _ _ _ _ _ hfail

/-- Witness for the amended C1 on a concrete 500 response carrying a
repeated header name, the case a real server produces with multiple
set-cookie headers. -/
theorem request_nonsuccess_persists_witness :
    (request (fun _ => (none : Option Nat))
        (some ⟨500, [("set-cookie", [97]), ("set-cookie", [98])], [111]⟩) (fun _ => none) []
        ⟨"GET", "u", []⟩ 0).result = .error (.nonSuccess 500 [111]) ∧
    storeGet (request (fun _ => (none : Option Nat))
        (some ⟨500, [("set-cookie", [97]), ("set-cookie", [98])], [111]⟩) (fun _ => none) []
        ⟨"GET", "u", []⟩ 0).store ((hash_request (add_user_agent ⟨"GET", "u", []⟩)).val)
      = some (.wellFormed (serialize_response
          ⟨500, [("set-cookie", [97]), ("set-cookie", [98])], [111]⟩ 0
          (cache_ttl (fun _ => none)))) ∧
    (request (fun _ => (none : Option Nat))
        (some ⟨500, [("set-cookie", [97]), ("set-cookie", [98])], [111]⟩) (fun _ => none)
        ((request (fun _ => (none : Option Nat))
          (some ⟨500, [("set-cookie", [97]), ("set-cookie", [98])], [111]⟩) (fun _ => none) []
          ⟨"GET", "u", []⟩ 0).store) ⟨"GET", "u", []⟩ 10).networkCalls = 0 ∧
    (request (fun _ => (none : Option Nat))
        (some ⟨500, [("set-cookie", [97]), ("set-cookie", [98])], [111]⟩) (fun _ => none)
        ((request (fun _ => (none : Option Nat))
          (some ⟨500, [("set-cookie", [97]), ("set-cookie", [98])], [111]⟩) (fun _ => none) []
          ⟨"GET", "u", []⟩ 0).store) ⟨"GET", "u", []⟩ 10).result
      = .error (.nonSuccess 500 [111]) :=
  request_nonsuccess_persists (fun _ => (none : Option Nat)) (fun _ => none) [] []
    ⟨"GET", "u", []⟩ 0 10 ⟨500, [("set-cookie", [97]), ("set-cookie", [98])], [111]⟩
    rfl (by decide) (by decide) (by decide)

/-! ### Claim C2 -/

/-- Claim C2, counterexample: with a malformed blob stored under the
fingerprint of the request and a network that would answer 200, the
facade returns the cache read failure to the caller and makes zero
network calls, instead of treating the corrupt entry as a miss and
fetching fresh. -/
theorem corrupt_treated_as_miss_refuted :
    (request (fun bs => (some bs : Option (List Nat))) (some ⟨200, [], [49]⟩) (fun _ => none)
        [((hash_request (add_user_agent ⟨"GET", "u", []⟩)).val, .malformed [0])]
        ⟨"GET", "u", []⟩ 0).result
      = .error (.cacheRead "Failed to deserialize cached HTTP response") ∧
    (request (fun bs => (some bs : Option (List Nat))) (some ⟨200, [], [49]⟩) (fun _ => none)
        [((hash_request (add_user_agent ⟨"GET", "u", []⟩)).val, .malformed [0])]
        ⟨"GET", "u", []⟩ 0).networkCalls = 0 :=
  ⟨rfl, rfl⟩

/-- Claim C2 (amended: decoding malformed bytes yields an error value,
never an uncaught failure, but the facade does NOT treat it as a miss:
the error propagates to the caller as a cache read failure, the store
is left unchanged and no network fetch is attempted). -/
theorem request_corrupt_entry_errors {T : Type} (decodeBody : List Nat → Option T)
    (net : Option HttpResponse) (env : Env) (store : Store) (req : OutboundRequest)
    (now : Int) (bs : List Nat)
    (hc : storeGet store ((hash_request (add_user_agent req)).val) = some (.malformed bs)) :
    request decodeBody net env store req now
      = ⟨.error (.cacheRead "Failed to deserialize cached HTTP response"), store, 0,
          [.cacheLookup ((hash_request (add_user_agent req)).val)]⟩ := by
  have hcr : cached_response store ((hash_request (add_user_agent req)).val) now
      = .error "Failed to deserialize cached HTTP response" := by
    unfold cached_response
    rw [hc]
    rfl
  simp only [request, hcr]

/-- Witness for the amended C2 on a concrete corrupt entry. -/
theorem request_corrupt_entry_errors_witness :
    request (fun bs => (some bs : Option (List Nat))) (some ⟨200, [], [49]⟩) (fun _ => none)
        [((hash_request (add_user_agent ⟨"GET", "v", []⟩)).val, .malformed [1, 2])]
        ⟨"GET", "v", []⟩ 0
      = ⟨.error (.cacheRead "Failed to deserialize cached HTTP response"),
          [((hash_request (add_user_agent ⟨"GET", "v", []⟩)).val, .malformed [1, 2])], 0,
          [.cacheLookup ((hash_request (add_user_agent ⟨"GET", "v", []⟩)).val)]⟩ :=
  request_corrupt_entry_errors (fun bs => (some bs : Option (List Nat))) (some ⟨200, [], [49]⟩)
    (fun _ => none) [((hash_request (add_user_agent ⟨"GET", "v", []⟩)).val, .malformed [1, 2])]
    ⟨"GET", "v", []⟩ 0 [1, 2] rfl

/-! ### Claim C4 -/

/-- Claim C4, counterexample: the GitHub issue checker performs its
network call with no preceding cache lookup, so it does not obtain its
response through the caching facade: its trace is exactly one network
call, which violates the cache-consulted-before-network property. -/
theorem github_checker_skips_cache_refuted :
    (GitHub.issue_closed (fun _ => some none) (some ⟨200, [], []⟩) (fun _ => none)
        "a/b#1").trace = [.networkCall] ∧
    cacheBeforeNetworkB false [FetchStep.networkCall] = false :=
  ⟨rfl, rfl⟩

/-- Claim C4 (amended: only the crates.io checker goes through the
synchronous request facade, so only there is the disk cache consulted
before any network call; the GitHub issue and pull request checkers
use their own direct request path in src/github.rs, which never
consults the disk cache). -/
theorem checkers_cache_usage :
    (∀ (V : Type) (decodeBody : List Nat → Option (List String))
        (parseVersion : String → Option V) (showVer : V → String) (reqMatches : V → Bool)
        (krate : String) (net : Option HttpResponse) (env : Env) (store : Store) (now : Int),
      cacheBeforeNetworkB false
          (Krate.crates_io decodeBody parseVersion showVer reqMatches krate net env
            store now).trace = true) ∧
    (∀ (decodeIssue : List Nat → Option (Option String)) (net : Option HttpResponse)
        (env : Env) (input : String),
      noCacheLookupB (GitHub.issue_closed decodeIssue net env input).trace = true) ∧
    (∀ (decodePr : List Nat → Option String) (net : Option HttpResponse)
        (env : Env) (input : String),
      noCacheLookupB (GitHub.pr_closed decodePr net env input).trace = true) := by
  refine ⟨?_, ?_, ?_⟩
  · intro V decodeBody parseVersion showVer reqMatches krate net env store now
    exact request_cache_before_network decodeBody net env store
      ⟨"GET", "https://crates.io/api/v1/crates/" ++ krate, []⟩ now
  · intro d net env input
    cases hp : GitHub.parseOrgRepoIssue input with
    | none => simp [GitHub.issue_closed, hp, noCacheLookupB]
    | some t =>
        obtain ⟨org, repo, n⟩ := t
        simp only [GitHub.issue_closed, hp]
        exact gh_request_no_cache ..
  · intro d net env input
    cases hp : GitHub.parseOrgRepoIssue input with
    | none => simp [GitHub.pr_closed, hp, noCacheLookupB]
    | some t =>
        obtain ⟨org, repo, n⟩ := t
        simp only [GitHub.pr_closed, hp]
        exact gh_request_no_cache ..

/-! ### Claim C8 -/

/-- Claim C8: when the skip variable is set to any value, every
checker entry point (all of them are perform_check applied to their
parser and checker function) immediately returns the empty token
stream without running the checker; and the skip switch lives at that
outer boundary only: the facade request path is oblivious to the skip
variable, depending on the environment only through the TTL
variable. -/
theorem skip_disables_checks_outside_facade :
    (∀ (α : Type) (env : Env) (v : String) (parsed : Except String α)
        (f : α → Except String (Option String)),
      env "TODO_OR_DIE_SKIP" = some v →
        Lib.perform_check env parsed f = ⟨.empty, false, none⟩) ∧
    (∀ (T : Type) (decodeBody : List Nat → Option T) (net : Option HttpResponse)
        (env1 env2 : Env) (store : Store) (req : OutboundRequest) (now : Int),
      env1 ttlVarName = env2 ttlVarName →
        request decodeBody net env1 store req now = request decodeBody net env2 store req now) := by
  constructor
  · intro α env v parsed f h
    unfold Lib.perform_check
    rw [h]
    rfl
  · intro T decodeBody net env1 env2 store req now h
    have hc : cache_ttl env1 = cache_ttl env2 := by
      unfold cache_ttl
      rw [h]
    simp only [request, cache_response, hc]

/-- Witness for C8: a set skip variable yields the empty expansion
with the checker not run, at a concrete environment. -/
theorem skip_disables_checks_outside_facade_witness :
    Lib.perform_check (fun k => if k == "TODO_OR_DIE_SKIP" then some "1" else none)
        (.ok ()) (fun _ => .ok (some "fail the build")) = ⟨.empty, false, none⟩ :=
  skip_disables_checks_outside_facade.1 Unit
    (fun k => if k == "TODO_OR_DIE_SKIP" then some "1" else none) "1" (.ok ())
    (fun _ => .ok (some "fail the build")) rfl

/-! ### Claim C10 -/

/-- Claim C10: with the skip variable unset and the input parse
accepted, a checker function error makes perform_check emit the empty
token stream, the error going only to standard error; the failure
never becomes a compile error. -/
theorem checker_error_never_fails_build {α : Type} (env : Env) (input : α)
    (f : α → Except String (Option String)) (err : String)
    (hskip : env "TODO_OR_DIE_SKIP" = none) (herr : f input = .error err) :
    Lib.perform_check env (.ok input) f
      = ⟨.empty, true, some ("something went wrong\n\n" ++ err)⟩ := by
  simp [Lib.perform_check, hskip, herr]

/-- Witness for C10 at a concrete erroring checker. -/
theorem checker_error_never_fails_build_witness :
    Lib.perform_check (fun _ => none) (.ok ()) (fun _ => .error "HTTP request to failed")
      = ⟨.empty, true, some ("something went wrong\n\n" ++ "HTTP request to failed")⟩ :=
  checker_error_never_fails_build (fun _ => none) () (fun _ => .error "HTTP request to failed")
    "HTTP request to failed" rfl rfl

end TodoOrDie
